import Mathlib

/-
Verification of the serum-iq binary decoding layer.

The development shallowly embeds the decoding pipeline of `src/serum.rs`
(and its duplicate in `src/main.rs`): padding validation and stripping,
account-flag-based layout dispatch for the market record, the key deriver,
the event-queue ring reader, and the `load_event_queue` facade.

Byte buffers are `List Nat` (each entry a byte value), 64-bit words are
`Nat` (values below 2 ^ 64 wherever the source guarantees it).  Fallible
Rust code returning `anyhow::Result` is embedded as `Except Err`; a Rust
panic (out-of-bounds slice, failed `assert_eq!`) is embedded as the
distinguished error `Err.rustPanic`, kept separate from the ordinary typed
errors that the source returns as values.
-/

/-- Error outcomes of the decoding pipeline.  Constructors other than
`rustPanic` model errors the source returns as ordinary `Err` values
(`format_err!` sites and errors propagated from callees); `rustPanic`
models a Rust panic: an out-of-bounds slice index or a failed
`assert_eq!`. -/
inductive Err where
  | rustPanic
  | tooSmall (len : Nat)
  | headMismatch
  | tailMismatch
  | misalignedLength
  | eventsTooSmall
  | sizeMismatch
  | flagMismatch
  | flagsReadError
  | unknownEventTag
  | dataSource
  | signerDerivation
deriving DecidableEq, Repr

/-- A Solana public key: 32 raw bytes. -/
abbrev Pubkey := List Nat

/-- Modelled from the spec: the protocol's fixed head padding constant,
a 5-byte sequence (the bytes of `serum`), prepended to every dex account
buffer.  The constant itself lives in the external serum-dex crate. -/
def ACCOUNT_HEAD_PADDING : List Nat := [115, 101, 114, 117, 109]

/-- Modelled from the spec: the protocol's fixed tail padding constant,
a 7-byte sequence (the bytes of `padding`), appended to every dex account
buffer.  The constant itself lives in the external serum-dex crate. -/
def ACCOUNT_TAIL_PADDING : List Nat := [112, 97, 100, 100, 105, 110, 103]

/-- Little-endian byte decomposition of a 64-bit word, as
`transmute_to_bytes` produces on a little-endian target. -/
def wordToBytes (w : Nat) : List Nat :=
  [w % 256, w / 256 % 256, w / 65536 % 256, w / 16777216 % 256,
   w / 4294967296 % 256, w / 1099511627776 % 256,
   w / 281474976710656 % 256, w / 72057594037927936 % 256]

/-- Little-endian byte encoding of a word sequence. -/
def wordsToBytes : List Nat → List Nat
  | [] => []
  | w :: ws => wordToBytes w ++ wordsToBytes ws

/-- Reinterpret a byte sequence as 8-byte little-endian words, as the
`u64` transmutes do on a little-endian target; trailing bytes that do not
fill a word are dropped (callers check divisibility first). -/
def bytesToWords : List Nat → List Nat
  | b0 :: b1 :: b2 :: b3 :: b4 :: b5 :: b6 :: b7 :: rest =>
      (b0 + 256 * (b1 + 256 * (b2 + 256 * (b3 + 256 * (b4 + 256 * (b5 +
        256 * (b6 + 256 * b7))))))) :: bytesToWords rest
  | _ => []

/-- Read one 64-bit little-endian word from the first 8 bytes of a byte
sequence (missing bytes read as 0; callers check the length first). -/
def leWord (bs : List Nat) : Nat :=
  bs.getD 0 0 + 256 * (bs.getD 1 0 + 256 * (bs.getD 2 0 + 256 * (bs.getD 3 0 +
    256 * (bs.getD 4 0 + 256 * (bs.getD 5 0 + 256 * (bs.getD 6 0 +
      256 * bs.getD 7 0))))))

/-- Embedding of `remove_dex_account_padding` (src/serum.rs lines 105-131,
duplicated in src/main.rs lines 32-58).  The source slices
`&data[..ACCOUNT_HEAD_PADDING.len()]` BEFORE its length check, so a buffer
shorter than the head padding panics (first branch); then it rejects
buffers too small for both paddings, mismatched head, mismatched tail; the
interior is reinterpreted as `u64` words.  The word reinterpretation is
modelled from the spec: it fails with `MisalignedLength` when the interior
length is not a multiple of 8 (the zero-copy versus owned-copy fallback of
the source is not observable in the result). -/
def remove_dex_account_padding (data : List Nat) : Except Err (List Nat) :=
  if data.length < ACCOUNT_HEAD_PADDING.length then .error .rustPanic
  else if data.length < ACCOUNT_HEAD_PADDING.length + ACCOUNT_TAIL_PADDING.length then
    .error (.tooSmall data.length)
  else if data.take ACCOUNT_HEAD_PADDING.length ≠ ACCOUNT_HEAD_PADDING then
    .error .headMismatch
  else if data.drop (data.length - ACCOUNT_TAIL_PADDING.length) ≠ ACCOUNT_TAIL_PADDING then
    .error .tailMismatch
  else
    let inner := (data.take (data.length - ACCOUNT_TAIL_PADDING.length)).drop
      ACCOUNT_HEAD_PADDING.length
    if inner.length % 8 ≠ 0 then .error .misalignedLength
    else .ok (bytesToWords inner)

/-- Head padding, interior words, tail padding, concatenated: the shape of
every well-formed dex account buffer. -/
def padded (ws : List Nat) : List Nat :=
  ACCOUNT_HEAD_PADDING ++ wordsToBytes ws ++ ACCOUNT_TAIL_PADDING

/-- Size of the event-queue header in 64-bit words:
`size_of::<EventQueueHeader>() >> 3` = 32 >> 3 = 4 (the header is four
`u64` fields). -/
def EVENT_Q_HEADER_WORDS : Nat := 4

/-- Size of one raw `Event` record in 64-bit words (88 bytes). -/
def EVENT_WORDS : Nat := 11

/-- Modelled from the spec: the event-queue header record of the external
serum-dex crate — `head` (index of the oldest live record) and `count`
(number of live records) plus internal bookkeeping fields. -/
structure EventQueueHeader where
  account_flags : Nat
  head : Nat
  count : Nat
  seq_num : Nat
deriving DecidableEq, Repr

/-- Decode the event-queue header from its four words
(`transmute_one_pedantic::<EventQueueHeader>`). -/
def decodeHeader (ws : List Nat) : EventQueueHeader :=
  ⟨ws.getD 0 0, ws.getD 1 0, ws.getD 2 0, ws.getD 3 0⟩

/-- Modelled from the spec: one raw `Event` record of the external
serum-dex crate.  The tag byte, owner slot and fee tier share the record's
first word; the remaining fields are the quantity, order, owner and
client-order fields the spec lists for the two views. -/
structure EventRec where
  tag : Nat
  owner_slot : Nat
  fee_tier : Nat
  native_qty_released : Nat
  native_qty_paid : Nat
  native_fee_or_rebate : Nat
  order_id : Nat
  owner : List Nat
  client_order_id : Nat
deriving DecidableEq, Repr

/-- Decode one raw event record from its eleven words. -/
def decodeEvent (ws : List Nat) : EventRec :=
  ⟨ws.getD 0 0 % 256, ws.getD 0 0 / 256 % 256, ws.getD 0 0 / 65536 % 256,
   ws.getD 1 0, ws.getD 2 0, ws.getD 3 0,
   ws.getD 4 0 + 18446744073709551616 * ws.getD 5 0,
   [ws.getD 6 0, ws.getD 7 0, ws.getD 8 0, ws.getD 9 0],
   ws.getD 10 0⟩

/-- Split the events region into consecutive 11-word records; a trailing
fragment shorter than one record is ignored, as the slice transmute keeps
only the complete `Event` records that fit. -/
def chunkEvents : List Nat → List (List Nat)
  | w0 :: w1 :: w2 :: w3 :: w4 :: w5 :: w6 :: w7 :: w8 :: w9 :: w10 :: rest =>
      [w0, w1, w2, w3, w4, w5, w6, w7, w8, w9, w10] :: chunkEvents rest
  | _ => []

/-- Order side of an event. -/
inductive Side where
  | bid
  | ask
deriving DecidableEq, Repr

/-- The two decoded event shapes of the spec's data model. -/
inductive EventView where
  | fill (side : Side) (maker : Bool)
      (native_qty_paid native_qty_received native_fee_or_rebate fee_tier order_id : Nat)
      (owner : List Nat) (owner_slot client_order_id : Nat)
  | out (side : Side) (release_funds : Bool)
      (native_qty_unlocked native_qty_still_locked order_id : Nat)
      (owner : List Nat) (owner_slot client_order_id : Nat)
deriving DecidableEq, Repr

/-- Modelled from the spec: the protocol's event tag bits — bit 0 marks a
Fill event, bit 1 an Out event, bit 2 the bid side, bit 3 the maker flag,
bit 4 the release-funds flag (constants of the external serum-dex crate). -/
def sideOf (tag : Nat) : Side :=
  if tag.testBit 2 then .bid else .ask

/-- Projection of a raw event with a recognized tag into its view: the
Fill bit selects the Fill view, otherwise the Out view applies. -/
def fillOutView (e : EventRec) : EventView :=
  if e.tag.testBit 0 then
    .fill (sideOf e.tag) (e.tag.testBit 3) e.native_qty_paid e.native_qty_released
      e.native_fee_or_rebate e.fee_tier e.order_id e.owner e.owner_slot e.client_order_id
  else
    .out (sideOf e.tag) (e.tag.testBit 4) e.native_qty_released e.native_qty_paid
      e.order_id e.owner e.owner_slot e.client_order_id

/-- Modelled from the spec: `Event::as_view` of the external serum-dex
crate — dispatch on the record's embedded tag, projecting the Fill or Out
view; a tag carrying neither the Fill bit nor the Out bit is an error, not
a silent default. -/
def as_view (e : EventRec) : Except Err EventView :=
  if e.tag.testBit 0 ∨ e.tag.testBit 1 then .ok (fillOutView e)
  else .error .unknownEventTag

/-- Apply `as_view` to each selected record, failing the whole read on the
first unrecognized tag (the `map(|e| e.as_view()?)` of the source). -/
def map_as_view : List EventRec → Except Err (List EventView)
  | [] => .ok []
  | e :: es =>
    match as_view e with
    | .error er => .error er
    | .ok v =>
      match map_as_view es with
      | .error er => .error er
      | .ok vs => .ok (v :: vs)

/-- Decoded event queue: header plus the views of the selected records. -/
structure EventQueue where
  header : EventQueueHeader
  events : List EventView
deriving DecidableEq, Repr

/-- Embedding of `parse_event_queue` (src/serum.rs lines 44-57).  The
source splits the words at the header size (`split_at` panics when the
input is shorter than the header), transmutes the remainder into `Event`
records (`SingleManyGuard` rejects a region shorter than one record,
complete records beyond that are kept), then slices the live region:
`events.split_at(header.head())` — a panic when `head` exceeds the number
of records, with NO reduction of `head` modulo the capacity — keeps only
the segment from `head` to the end of the array, and
`head_seg.len().min(header.count())` clamps the count to that segment.
The wrapped-around part of the ring (the records at indices
0 .. head + count - capacity) is never read.  Each kept record is decoded
through `as_view`, any failure failing the whole read. -/
def parse_event_queue (data_words : List Nat) : Except Err EventQueue :=
  if data_words.length < EVENT_Q_HEADER_WORDS then .error .rustPanic
  else
    let header := decodeHeader (data_words.take EVENT_Q_HEADER_WORDS)
    let event_words := data_words.drop EVENT_Q_HEADER_WORDS
    if event_words.length < EVENT_WORDS then .error .eventsTooSmall
    else
      let events := (chunkEvents event_words).map decodeEvent
      if events.length < header.head then .error .rustPanic
      else
        let head_seg := events.drop header.head
        let head_len := min head_seg.length header.count
        match map_as_view (head_seg.take head_len) with
        | .error e => .error e
        | .ok views => .ok ⟨header, views⟩

/-- Size of the plain `MarketState` record in 64-bit words (376 bytes). -/
def MARKET_STATE_WORDS : Nat := 47

/-- Size of the wrapping `MarketStateV2` record in 64-bit words: the plain
record plus the extra authority fields and reserved space (1464 bytes). -/
def MARKET_STATE_V2_WORDS : Nat := 183

/-- Modelled from the spec: the account-flags value a plain market record
must carry — the Initialized bit (bit 0) plus the Market bit (bit 1), the
Permissioned bit absent. -/
def FLAGS_INIT_MARKET : Nat := 3

/-- Modelled from the spec: the account-flags value a permissioned (V2)
market record must carry — Initialized (bit 0) plus Market (bit 1) plus
Permissioned (bit 9). -/
def FLAGS_INIT_MARKET_PERM : Nat := 515

/-- Modelled from the spec: the decoded market record — the account-flags
bitset, the self-referential own address, the vault-signer nonce, and the
sub-account identifiers, each 32-byte identifier held as its four words. -/
structure MarketState where
  account_flags : Nat
  own_address : List Nat
  vault_signer_nonce : Nat
  coin_vault : List Nat
  pc_vault : List Nat
  req_q : List Nat
  event_q : List Nat
  bids : List Nat
  asks : List Nat
deriving DecidableEq, Repr

/-- Modelled from the spec: field offsets (in words) of the plain market
record, protocol constants of the reference layout — flags at word 0, own
address at words 1-4, vault-signer nonce at word 5, coin vault at 14-17,
price-currency vault at 20-23, request queue at 27-30, event queue at
31-34, bids at 35-38, asks at 39-42.  The V2 record wraps the plain record
at offset 0, so projecting its inner record reads the same offsets. -/
def decodeMarketStateWords (ws : List Nat) : MarketState :=
  ⟨ws.getD 0 0, (ws.drop 1).take 4, ws.getD 5 0, (ws.drop 14).take 4,
   (ws.drop 20).take 4, (ws.drop 27).take 4, (ws.drop 31).take 4,
   (ws.drop 35).take 4, (ws.drop 39).take 4⟩

/-- Modelled from the spec: `Market::account_flags` of the external
serum-dex crate — read the account-flags word from the raw (still padded)
buffer at the fixed offset right after the head padding, failing when the
buffer is too short to hold it. -/
def market_account_flags (account_data : List Nat) : Except Err Nat :=
  if account_data.length < ACCOUNT_HEAD_PADDING.length + 8 then .error .flagsReadError
  else .ok (leWord ((account_data.drop ACCOUNT_HEAD_PADDING.length).take 8))

/-- Embedding of the market-state block of `get_keys_for_market`
(src/serum.rs lines 141-154): read the flags word from the raw buffer; if
its Permissioned bit is set, reinterpret the whole word sequence as the
wrapping V2 record (`transmute_one_pedantic` demands the exact record
size), validate its flags, and project out the inner plain record;
otherwise reinterpret the words as the plain record and validate its
flags.  The flag validation (`check_flags`) is modelled from the spec:
the flags must equal Initialized + Market + Permissioned for the V2
record, Initialized + Market for the plain record. -/
def decode_market_state (account_data words : List Nat) : Except Err MarketState :=
  match market_account_flags account_data with
  | .error e => .error e
  | .ok flags =>
    if flags.testBit 9 then
      if words.length ≠ MARKET_STATE_V2_WORDS then .error .sizeMismatch
      else
        let st := decodeMarketStateWords words
        if st.account_flags ≠ FLAGS_INIT_MARKET_PERM then .error .flagMismatch
        else .ok st
    else
      if words.length ≠ MARKET_STATE_WORDS then .error .sizeMismatch
      else
        let st := decodeMarketStateWords words
        if st.account_flags ≠ FLAGS_INIT_MARKET then .error .flagMismatch
        else .ok st

/-- The externally useful subset of the market record (src/serum.rs lines
19-29): the eight identifiers plus the derived vault-signer identifier. -/
structure MarketPubkeys where
  market : Pubkey
  req_q : Pubkey
  event_q : Pubkey
  bids : Pubkey
  asks : Pubkey
  coin_vault : Pubkey
  pc_vault : Pubkey
  vault_signer_key : Pubkey
deriving DecidableEq, Repr

/-- Embedding of `get_keys_for_market` (src/serum.rs lines 134-183,
duplicated in src/main.rs lines 61-110), parametrized by the external
collaborators: `fetch` stands for `client.get_account_data` and `gen` for
`gen_vault_signer_key` of the external serum-dex crate (an opaque
derivation from the nonce, the market identifier and the program
identifier, in that argument order).  After the derivation, the source
checks `assert_eq!(own_address bytes, market)` — a PANIC on mismatch, not
a returned error — and finally copies the `market` argument verbatim and
the identifier fields out of the decoded record. -/
def get_keys_for_market (fetch : Pubkey → Except Err (List Nat))
    (gen : Nat → Pubkey → Pubkey → Except Err Pubkey)
    (program_id market : Pubkey) : Except Err MarketPubkeys :=
  match fetch market with
  | .error e => .error e
  | .ok account_data =>
    match remove_dex_account_padding account_data with
    | .error e => .error e
    | .ok words =>
      match decode_market_state account_data words with
      | .error e => .error e
      | .ok market_state =>
        match gen market_state.vault_signer_nonce market program_id with
        | .error e => .error e
        | .ok vault_signer_key =>
          if wordsToBytes market_state.own_address ≠ market then .error .rustPanic
          else .ok ⟨market, wordsToBytes market_state.req_q,
            wordsToBytes market_state.event_q, wordsToBytes market_state.bids,
            wordsToBytes market_state.asks, wordsToBytes market_state.coin_vault,
            wordsToBytes market_state.pc_vault, vault_signer_key⟩

/-- Embedding of `load_event_queue` (src/serum.rs lines 36-42): derive the
market keys, fetch the event-queue account, strip its padding, parse the
event queue — each stage's error propagated unchanged by `?` — and then
return `Ok(())`, DISCARDING the decoded `EventQueue` value (the source
binds it to an unused local and returns unit). -/
def load_event_queue (fetch : Pubkey → Except Err (List Nat))
    (gen : Nat → Pubkey → Pubkey → Except Err Pubkey)
    (dex_program_id market : Pubkey) : Except Err Unit :=
  match get_keys_for_market fetch gen dex_program_id market with
  | .error e => .error e
  | .ok market_keys =>
    match fetch market_keys.event_q with
    | .error e => .error e
    | .ok event_q_data =>
      match remove_dex_account_padding event_q_data with
      | .error e => .error e
      | .ok inner =>
        match parse_event_queue inner with
        | .error e => .error e
        | .ok _event_queue => .ok ()

/-- The records the event reader selects: drop `head` records, then take
at most `count` of what remains — the selection `parse_event_queue`
performs (no wraparound to the front of the array). -/
def liveEvents (ws : List Nat) : List EventRec :=
  let header := decodeHeader (ws.take EVENT_Q_HEADER_WORDS)
  let events := (chunkEvents (ws.drop EVENT_Q_HEADER_WORDS)).map decodeEvent
  let head_seg := events.drop header.head
  head_seg.take (min head_seg.length header.count)

/-- Event-queue words with capacity 2, head 1, count 2: the live ring
region wraps around (records at ring indices 1 then 0).  Record 0 carries
the Fill tag, record 1 the Out tag. -/
def c1_words : List Nat :=
  [0, 1, 2, 0] ++ ([1] ++ List.replicate 10 0) ++ ([2] ++ List.replicate 10 0)

/-- Event-queue words with capacity 1 and head 2 (head exceeds the
capacity): four header words with head = 2, count = 0, then one all-zero
event record. -/
def c2_words : List Nat := [0, 2, 0, 0] ++ List.replicate 11 0

/-- Event-queue words holding one live record with an unrecognized tag:
head 0, count 1, one all-zero event record (tag byte 0 carries neither the
Fill bit nor the Out bit). -/
def c8_words : List Nat := [0, 0, 1, 0] ++ List.replicate 11 0

/-- A market identifier of 32 zero bytes, used by the concrete scenarios
below. -/
def demo_m : Pubkey := List.replicate 32 0

/-- A program identifier (32 bytes, all 1), used by the concrete scenarios
below. -/
def demo_prog : Pubkey := List.replicate 32 1

/-- The event-queue identifier stored in the demo market record: the
bytes of the words 1, 0, 0, 0. -/
def demo_eq_pk : Pubkey := wordsToBytes [1, 0, 0, 0]

/-- A well-formed plain market record (47 words): flags Initialized +
Market, own address equal to `demo_m` (zero), event-queue identifier
`demo_eq_pk`, every other field zero. -/
def demo_market_words : List Nat :=
  [3] ++ List.replicate 30 0 ++ [1] ++ List.replicate 15 0

/-- A well-formed event-queue account interior (15 words): header with
head 0, count 1, then one Fill-tagged event record. -/
def demo_eq_words : List Nat := [3, 0, 1, 0, 1] ++ List.replicate 10 0

/-- A data source serving the demo market account under `demo_m` and the
demo event-queue account under `demo_eq_pk`. -/
def demo_fetch (k : Pubkey) : Except Err (List Nat) :=
  if k = demo_m then .ok (padded demo_market_words)
  else if k = demo_eq_pk then .ok (padded demo_eq_words)
  else .error .dataSource

/-- A vault-signer derivation that always succeeds with the zero key
(standing in for the opaque external derivation). -/
def demo_gen (_nonce : Nat) (_market _program : Pubkey) : Except Err Pubkey :=
  .ok (List.replicate 32 0)

/-- The market keys the demo scenario decodes. -/
def demo_ks : MarketPubkeys :=
  ⟨List.replicate 32 0, List.replicate 32 0, wordsToBytes [1, 0, 0, 0],
   List.replicate 32 0, List.replicate 32 0, List.replicate 32 0,
   List.replicate 32 0, List.replicate 32 0⟩

/-- A plain market record whose own-address words are 1, 0, 0, 0 — NOT
the bytes of the market identifier it is served under. -/
def c4_market_words : List Nat := [3, 1] ++ List.replicate 45 0

/-- A data source serving the mismatched-own-address market account under
`demo_m`. -/
def c4_fetch (k : Pubkey) : Except Err (List Nat) :=
  if k = demo_m then .ok (padded c4_market_words) else .error .dataSource

/-- A data source that fails every fetch. -/
def failing_fetch (_k : Pubkey) : Except Err (List Nat) := .error .dataSource


/-- A plain market word sequence: flags Initialized + Market, all other
words zero (47 words). -/
def c7_plain_words : List Nat := [3] ++ List.replicate 46 0

/-- A permissioned market word sequence: flags Initialized + Market +
Permissioned, all other words zero (183 words). -/
def c7_perm_words : List Nat := [515] ++ List.replicate 182 0

/-- Recombining the eight little-endian bytes of a 64-bit word gives the
word back. -/
theorem word_recomb (w : Nat) (h : w < 18446744073709551616) :
    w % 256 + 256 * (w / 256 % 256 + 256 * (w / 65536 % 256 + 256 * (w / 16777216 % 256 +
      256 * (w / 4294967296 % 256 + 256 * (w / 1099511627776 % 256 +
        256 * (w / 281474976710656 % 256 + 256 * (w / 72057594037927936 % 256))))))) = w := by
  omega

/-- The little-endian encoding produces 8 bytes per word. -/
theorem wordsToBytes_length (ws : List Nat) : (wordsToBytes ws).length = 8 * ws.length := by
  induction ws with
  | nil => rfl
  | cons w ws ih =>
    simp only [wordsToBytes, wordToBytes, List.length_append, List.length_cons, ih,
      List.length_nil, List.length_cons]
    omega

/-- Encoding a sequence of 64-bit words to bytes and reading the bytes
back as words is the identity. -/
theorem bytesToWords_wordsToBytes (ws : List Nat)
    (h : ∀ w ∈ ws, w < 18446744073709551616) :
    bytesToWords (wordsToBytes ws) = ws := by
  induction ws with
  | nil => rfl
  | cons w ws ih =>
    have hw : w < 18446744073709551616 := h w (by simp)
    have hrest : ∀ x ∈ ws, x < 18446744073709551616 := fun x hx => h x (by simp [hx])
    simp only [wordsToBytes, wordToBytes, List.cons_append, List.nil_append,
      List.append_eq, bytesToWords]
    rw [ih hrest, word_recomb w hw]

/-- Length of a well-formed padded buffer. -/
theorem padded_length (ws : List Nat) : (padded ws).length = 12 + 8 * ws.length := by
  have h1 : ACCOUNT_HEAD_PADDING.length = 5 := rfl
  have h2 : ACCOUNT_TAIL_PADDING.length = 7 := rfl
  simp only [padded, List.length_append, wordsToBytes_length, h1, h2]
  omega

/-- The head-padding slice of a well-formed padded buffer is the head
padding constant. -/
theorem padded_take_head (ws : List Nat) :
    (padded ws).take ACCOUNT_HEAD_PADDING.length = ACCOUNT_HEAD_PADDING := by
  exact List.take_left' rfl

/-- The tail slice of a well-formed padded buffer is the tail padding
constant. -/
theorem padded_drop_tail (ws : List Nat) :
    (padded ws).drop ((padded ws).length - ACCOUNT_TAIL_PADDING.length) =
      ACCOUNT_TAIL_PADDING := by
  have hassoc : padded ws =
      (ACCOUNT_HEAD_PADDING ++ wordsToBytes ws) ++ ACCOUNT_TAIL_PADDING := by
    simp [padded, List.append_assoc]
  rw [hassoc]
  refine List.drop_left' ?_
  have h1 : ACCOUNT_HEAD_PADDING.length = 5 := rfl
  have h2 : ACCOUNT_TAIL_PADDING.length = 7 := rfl
  simp only [List.length_append, wordsToBytes_length, h1, h2]
  omega

/-- The interior slice of a well-formed padded buffer is the encoded word
sequence. -/
theorem padded_inner (ws : List Nat) :
    ((padded ws).take ((padded ws).length - ACCOUNT_TAIL_PADDING.length)).drop
      ACCOUNT_HEAD_PADDING.length = wordsToBytes ws := by
  have hassoc : padded ws =
      (ACCOUNT_HEAD_PADDING ++ wordsToBytes ws) ++ ACCOUNT_TAIL_PADDING := by
    simp [padded, List.append_assoc]
  rw [hassoc]
  have hlen2 : (ACCOUNT_HEAD_PADDING ++ wordsToBytes ws).length =
      ((ACCOUNT_HEAD_PADDING ++ wordsToBytes ws) ++ ACCOUNT_TAIL_PADDING).length -
        ACCOUNT_TAIL_PADDING.length := by
    simp only [List.length_append]
    omega
  rw [List.take_left' hlen2]
  exact List.drop_left' rfl

/-- Characterization of a successful strip: when the buffer is long
enough, both paddings match and the interior is word-aligned, the stripper
returns the interior reinterpreted as words. -/
theorem strip_ok_of (data inner : List Nat)
    (h1 : ACCOUNT_HEAD_PADDING.length + ACCOUNT_TAIL_PADDING.length ≤ data.length)
    (h2 : data.take ACCOUNT_HEAD_PADDING.length = ACCOUNT_HEAD_PADDING)
    (h3 : data.drop (data.length - ACCOUNT_TAIL_PADDING.length) = ACCOUNT_TAIL_PADDING)
    (hi : (data.take (data.length - ACCOUNT_TAIL_PADDING.length)).drop
      ACCOUNT_HEAD_PADDING.length = inner)
    (h4 : inner.length % 8 = 0) :
    remove_dex_account_padding data = .ok (bytesToWords inner) := by
  have e1 : ACCOUNT_HEAD_PADDING.length = 5 := rfl
  have e2 : ACCOUNT_TAIL_PADDING.length = 7 := rfl
  simp only [remove_dex_account_padding]
  rw [if_neg (by omega), if_neg (by omega), if_neg (by simp [h2]), if_neg (by simp [h3]),
    hi, if_neg (by simp [h4])]

/-- The only error `as_view` produces is the unknown-tag error. -/
theorem as_view_error_eq (a : EventRec) (er : Err) (h : as_view a = .error er) :
    er = .unknownEventTag := by
  unfold as_view at h
  split at h
  · cases h
  · injection h with h
    exact h.symm

/-- A single unrecognized tag anywhere in the selected records fails the
whole traversal with the unknown-tag error. -/
theorem map_as_view_err (l : List EventRec) (e : EventRec) (he : e ∈ l)
    (hbad : ¬(e.tag.testBit 0 ∨ e.tag.testBit 1)) :
    map_as_view l = .error .unknownEventTag := by
  induction l with
  | nil => cases he
  | cons a l ih =>
    rw [map_as_view]
    cases he with
    | head =>
      rw [as_view, if_neg hbad]
    | tail _ hm =>
      cases ha : as_view a with
      | error er => rw [as_view_error_eq a er ha]
      | ok v => rw [ih hm]

/-- When every selected record carries a recognized tag, the traversal
succeeds and projects each record through `fillOutView`. -/
theorem map_as_view_ok (l : List EventRec)
    (h : ∀ e ∈ l, e.tag.testBit 0 ∨ e.tag.testBit 1) :
    map_as_view l = .ok (l.map fillOutView) := by
  induction l with
  | nil => rfl
  | cons a l ih =>
    rw [map_as_view, as_view, if_pos (h a (by simp)),
      ih (fun e he => h e (by simp [he])), List.map_cons]

/-- Reading the account-flags word from a well-formed padded buffer
yields the first interior word. -/
theorem market_account_flags_padded (ws : List Nat) (hne : ws ≠ [])
    (h0 : ws.getD 0 0 < 18446744073709551616) :
    market_account_flags (padded ws) = .ok (ws.getD 0 0) := by
  cases ws with
  | nil => cases hne rfl
  | cons w rest =>
    have hw : w < 18446744073709551616 := h0
    have hlen : ¬((padded (w :: rest)).length < ACCOUNT_HEAD_PADDING.length + 8) := by
      have := padded_length (w :: rest)
      have e1 : ACCOUNT_HEAD_PADDING.length = 5 := rfl
      simp only [List.length_cons] at this
      omega
    rw [market_account_flags, if_neg hlen]
    have hdrop : (padded (w :: rest)).drop ACCOUNT_HEAD_PADDING.length =
        wordsToBytes (w :: rest) ++ ACCOUNT_TAIL_PADDING := by
      simp only [padded]
      exact List.drop_left' rfl
    rw [hdrop]
    have htake : (wordsToBytes (w :: rest) ++ ACCOUNT_TAIL_PADDING).take 8 =
        wordToBytes w ++ [] := by
      have hsplit : wordsToBytes (w :: rest) ++ ACCOUNT_TAIL_PADDING =
          wordToBytes w ++ (wordsToBytes rest ++ ACCOUNT_TAIL_PADDING) := by
        simp [wordsToBytes, List.append_assoc]
      rw [hsplit, List.take_append_eq_append_take]
      have h8 : (wordToBytes w).take 8 = wordToBytes w := by
        simp [wordToBytes]
      rw [h8]
      have hz : 8 - (wordToBytes w).length = 0 := by simp [wordToBytes]
      rw [hz, List.take_zero]
    rw [htake]
    simp only [leWord, wordToBytes, List.append_nil, List.getD, List.get?, List.getD_cons_zero,
      List.getD_cons_succ, Option.getD_some]
    rw [word_recomb w hw]

set_option maxRecDepth 20000 in
/-- C1: the claim requires the reader to return min(count, capacity)
EventViews in ring order with wraparound.  Evaluating the embedded reader
at capacity 2, head 1, count 2 (input `c1_words`): it returns a single
view — the Out record at array index 1 — and never reads the wrapped
record at ring index 0, instead of the two views at ring indices 1 then 0
that the claim requires.  The source slices only `head_seg[..head_len]`
and drops the wrapped tail segment of the ring. -/
theorem parse_event_queue_drops_wrapped_segment :
    parse_event_queue c1_words =
      .ok ⟨⟨0, 1, 2, 0⟩, [.out .ask false 0 0 0 [0, 0, 0, 0] 0 0]⟩ ∧
    min 2 2 = 2 := ⟨rfl, rfl⟩

set_option maxRecDepth 20000 in
/-- C2: the claim requires the head index to be interpreted modulo the
capacity so that no head value causes a panic.  Evaluating the embedded
reader on a queue of capacity 1 whose header stores head = 2 (input
`c2_words`): `events.split_at(header.head())` indexes out of bounds and
the source panics — the head is never reduced modulo the capacity. -/
theorem parse_event_queue_head_over_capacity_panics :
    parse_event_queue c2_words = .error .rustPanic := rfl

/-- C3: the claim requires every buffer shorter than head padding plus
tail padding — including buffers shorter than the head padding alone — to
produce the TooSmall error without panicking.  Evaluating the embedded
stripper: the empty buffer panics, because the source slices
`&data[..ACCOUNT_HEAD_PADDING.len()]` BEFORE its length check; a buffer
holding exactly the 5 head-padding bytes does reach the check and gets
TooSmall. -/
theorem remove_padding_short_buffer_panics :
    remove_dex_account_padding [] = .error .rustPanic ∧
    remove_dex_account_padding ACCOUNT_HEAD_PADDING = .error (.tooSmall 5) := ⟨rfl, rfl⟩

set_option maxRecDepth 100000 in
/-- C4: the claim requires a decoded market record whose own address
differs from the queried market identifier to produce the
SelfReferenceMismatch error as an ordinary typed error.  Evaluating the
embedded `get_keys_for_market` on a well-formed plain market account whose
own-address words are 1,0,0,0 served under the all-zero market identifier:
the source's `assert_eq!` fires and the call PANICS instead of returning a
typed error. -/
theorem get_keys_self_reference_mismatch_panics :
    get_keys_for_market c4_fetch demo_gen demo_prog demo_m = .error .rustPanic := rfl

/-- C6: padding round-trip — stripping the buffer formed of head padding,
the little-endian bytes of any 64-bit word sequence, and tail padding
succeeds and returns exactly that word sequence. -/
theorem strip_roundtrip (ws : List Nat) (h : ∀ w ∈ ws, w < 18446744073709551616) :
    remove_dex_account_padding (padded ws) = .ok ws := by
  have e1 : ACCOUNT_HEAD_PADDING.length = 5 := rfl
  have e2 : ACCOUNT_TAIL_PADDING.length = 7 := rfl
  have h1 : ACCOUNT_HEAD_PADDING.length + ACCOUNT_TAIL_PADDING.length ≤
      (padded ws).length := by
    rw [padded_length]
    omega
  have h4 : (wordsToBytes ws).length % 8 = 0 := by
    rw [wordsToBytes_length]
    omega
  rw [strip_ok_of (padded ws) (wordsToBytes ws) h1 (padded_take_head ws)
    (padded_drop_tail ws) (padded_inner ws) h4, bytesToWords_wordsToBytes ws h]

/-- Witness for C6 at a concrete word sequence. -/
theorem strip_roundtrip_witness :
    remove_dex_account_padding (padded [7, 18446744073709551615]) =
      .ok [7, 18446744073709551615] :=
  strip_roundtrip [7, 18446744073709551615] (by decide)

/-- C9: a buffer whose head and tail padding are correct but whose
interior length is not a multiple of 8 fails with the MisalignedLength
error. -/
theorem strip_misaligned (data : List Nat)
    (h1 : ACCOUNT_HEAD_PADDING.length + ACCOUNT_TAIL_PADDING.length ≤ data.length)
    (h2 : data.take ACCOUNT_HEAD_PADDING.length = ACCOUNT_HEAD_PADDING)
    (h3 : data.drop (data.length - ACCOUNT_TAIL_PADDING.length) = ACCOUNT_TAIL_PADDING)
    (h4 : (data.length - (ACCOUNT_HEAD_PADDING.length + ACCOUNT_TAIL_PADDING.length)) % 8 ≠ 0) :
    remove_dex_account_padding data = .error .misalignedLength := by
  have e1 : ACCOUNT_HEAD_PADDING.length = 5 := rfl
  have e2 : ACCOUNT_TAIL_PADDING.length = 7 := rfl
  simp only [remove_dex_account_padding]
  rw [if_neg (by omega), if_neg (by omega), if_neg (by simp [h2]), if_neg (by simp [h3]),
    if_pos]
  simp only [List.length_drop, List.length_take]
  omega

/-- Witness for C9: correct paddings around a 4-byte interior. -/
theorem strip_misaligned_witness :
    remove_dex_account_padding
      (ACCOUNT_HEAD_PADDING ++ [0, 0, 0, 0] ++ ACCOUNT_TAIL_PADDING) =
      .error .misalignedLength :=
  strip_misaligned (ACCOUNT_HEAD_PADDING ++ [0, 0, 0, 0] ++ ACCOUNT_TAIL_PADDING)
    (by decide) (by decide) (by decide) (by decide)

set_option maxRecDepth 100000 in
/-- C5 counterexample: a concrete run on which every stage succeeds, yet
`load_event_queue` returns unit — not the decoded pair.  The second
conjunct recomputes the event queue the pipeline decoded (header with
head 0 and count 1, one Fill view): this value is discarded by the facade,
so the claim that the pair is returned on success is false. -/
theorem load_event_queue_returns_unit :
    load_event_queue demo_fetch demo_gen demo_prog demo_m = .ok () ∧
    parse_event_queue demo_eq_words =
      .ok ⟨⟨3, 0, 1, 0⟩, [.fill .ask false 0 0 0 0 0 [0, 0, 0, 0] 0 0]⟩ := ⟨rfl, rfl⟩

/-- C5 as amended: `load_event_queue` propagates the error of whichever
stage fails first — key derivation, second fetch, second padding strip,
event-queue parse — unchanged and with no partial result, and on success
of every stage returns unit, discarding the decoded event queue. -/
theorem load_event_queue_stages (fetch : Pubkey → Except Err (List Nat))
    (gen : Nat → Pubkey → Pubkey → Except Err Pubkey) (p m : Pubkey) :
    (∀ e, get_keys_for_market fetch gen p m = .error e →
      load_event_queue fetch gen p m = .error e) ∧
    (∀ ks e, get_keys_for_market fetch gen p m = .ok ks →
      fetch ks.event_q = .error e →
      load_event_queue fetch gen p m = .error e) ∧
    (∀ ks d e, get_keys_for_market fetch gen p m = .ok ks →
      fetch ks.event_q = .ok d →
      remove_dex_account_padding d = .error e →
      load_event_queue fetch gen p m = .error e) ∧
    (∀ ks d w e, get_keys_for_market fetch gen p m = .ok ks →
      fetch ks.event_q = .ok d →
      remove_dex_account_padding d = .ok w →
      parse_event_queue w = .error e →
      load_event_queue fetch gen p m = .error e) ∧
    (∀ ks d w q, get_keys_for_market fetch gen p m = .ok ks →
      fetch ks.event_q = .ok d →
      remove_dex_account_padding d = .ok w →
      parse_event_queue w = .ok q →
      load_event_queue fetch gen p m = .ok ()) := by
  refine ⟨?_, ?_, ?_, ?_, ?_⟩ <;> intros <;> unfold load_event_queue <;> simp_all

/-- Witness for the amended C5: a failing first fetch surfaces the data
source error unchanged. -/
theorem load_event_queue_stages_witness :
    load_event_queue failing_fetch demo_gen demo_prog demo_m = .error .dataSource :=
  (load_event_queue_stages failing_fetch demo_gen demo_prog demo_m).1 .dataSource rfl

/-- C7: layout dispatch — for a word sequence whose account-flags word
has the Permissioned bit set, decoding goes through the V2 branch: it
fails unless the sequence is exactly the V2 record size, fails with
FlagMismatch unless the record's flags equal Initialized + Market +
Permissioned, and otherwise succeeds with the projected inner plain
record; without the Permissioned bit it goes through the plain branch:
exact plain record size, flags equal to Initialized + Market. -/
theorem decode_market_state_dispatch (ws : List Nat) (hne : ws ≠ [])
    (h0 : ws.getD 0 0 < 18446744073709551616) :
    ((ws.getD 0 0).testBit 9 →
      (ws.length ≠ MARKET_STATE_V2_WORDS →
        decode_market_state (padded ws) ws = .error .sizeMismatch) ∧
      (ws.length = MARKET_STATE_V2_WORDS →
        (ws.getD 0 0 ≠ FLAGS_INIT_MARKET_PERM →
          decode_market_state (padded ws) ws = .error .flagMismatch) ∧
        (ws.getD 0 0 = FLAGS_INIT_MARKET_PERM →
          decode_market_state (padded ws) ws = .ok (decodeMarketStateWords ws)))) ∧
    (¬(ws.getD 0 0).testBit 9 →
      (ws.length ≠ MARKET_STATE_WORDS →
        decode_market_state (padded ws) ws = .error .sizeMismatch) ∧
      (ws.length = MARKET_STATE_WORDS →
        (ws.getD 0 0 ≠ FLAGS_INIT_MARKET →
          decode_market_state (padded ws) ws = .error .flagMismatch) ∧
        (ws.getD 0 0 = FLAGS_INIT_MARKET →
          decode_market_state (padded ws) ws = .ok (decodeMarketStateWords ws)))) := by
  have hf := market_account_flags_padded ws hne h0
  have hafl : (decodeMarketStateWords ws).account_flags = ws.getD 0 0 := rfl
  refine ⟨fun hbit => ⟨fun hsz => ?_, fun hsz => ⟨fun hfl => ?_, fun hfl => ?_⟩⟩,
         fun hbit => ⟨fun hsz => ?_, fun hsz => ⟨fun hfl => ?_, fun hfl => ?_⟩⟩⟩ <;>
    simp only [decode_market_state, hf]
  · rw [if_pos hbit, if_pos hsz]
  · rw [if_pos hbit, if_neg (by simp [hsz]), if_pos (by rw [hafl]; exact hfl)]
  · rw [if_pos hbit, if_neg (by simp [hsz]),
      if_neg (by rw [hafl]; exact not_ne_iff.mpr hfl)]
  · rw [if_neg hbit, if_pos hsz]
  · rw [if_neg hbit, if_neg (by simp [hsz]), if_pos (by rw [hafl]; exact hfl)]
  · rw [if_neg hbit, if_neg (by simp [hsz]),
      if_neg (by rw [hafl]; exact not_ne_iff.mpr hfl)]

set_option maxRecDepth 100000 in
/-- Witness for C7: the plain branch succeeds on a 47-word record with
flags Initialized + Market, and the permissioned branch succeeds on a
183-word record with flags Initialized + Market + Permissioned. -/
theorem decode_market_state_dispatch_witness :
    decode_market_state (padded c7_plain_words) c7_plain_words =
      .ok (decodeMarketStateWords c7_plain_words) ∧
    decode_market_state (padded c7_perm_words) c7_perm_words =
      .ok (decodeMarketStateWords c7_perm_words) :=
  ⟨(((decode_market_state_dispatch c7_plain_words (by decide) (by decide)).2
      (by decide)).2 (by decide)).2 (by decide),
   (((decode_market_state_dispatch c7_perm_words (by decide) (by decide)).1
      (by decide)).2 (by decide)).2 (by decide)⟩

/-- C8: event tag dispatch — on every event-queue word sequence the
reader reaches without panicking (at least a header, at least one record,
head within the record count), if some record of the live region it
selects carries a tag with neither the Fill bit nor the Out bit, the
whole read fails with the unknown-tag error and no events are returned;
if every selected record carries a recognized tag, the read succeeds and
each record is projected to its Fill or Out view in order. -/
theorem parse_event_queue_tag_dispatch (ws : List Nat)
    (h1 : EVENT_Q_HEADER_WORDS ≤ ws.length)
    (h2 : EVENT_WORDS ≤ ws.length - EVENT_Q_HEADER_WORDS)
    (h3 : (decodeHeader (ws.take EVENT_Q_HEADER_WORDS)).head ≤
      ((chunkEvents (ws.drop EVENT_Q_HEADER_WORDS)).map decodeEvent).length) :
    ((∃ e ∈ liveEvents ws, ¬(e.tag.testBit 0 ∨ e.tag.testBit 1)) →
      parse_event_queue ws = .error .unknownEventTag) ∧
    ((∀ e ∈ liveEvents ws, e.tag.testBit 0 ∨ e.tag.testBit 1) →
      parse_event_queue ws =
        .ok ⟨decodeHeader (ws.take EVENT_Q_HEADER_WORDS),
          (liveEvents ws).map fillOutView⟩) := by
  have hg1 : ¬(ws.length < EVENT_Q_HEADER_WORDS) := by omega
  have hg2 : ¬((ws.drop EVENT_Q_HEADER_WORDS).length < EVENT_WORDS) := by
    rw [List.length_drop]
    omega
  constructor
  · rintro ⟨e, he, hbad⟩
    simp only [liveEvents] at he
    simp only [parse_event_queue]
    rw [if_neg hg1, if_neg hg2, if_neg (by simpa using h3),
      map_as_view_err _ e he hbad]
  · intro hall
    simp only [liveEvents] at hall
    simp only [parse_event_queue, liveEvents]
    rw [if_neg hg1, if_neg hg2, if_neg (by simpa using h3),
      map_as_view_ok _ hall]

/-- Witness for C8: a queue whose single live record carries tag 0
(neither Fill nor Out) fails with the unknown-tag error. -/
theorem parse_event_queue_tag_dispatch_witness :
    parse_event_queue c8_words = .error .unknownEventTag :=
  (parse_event_queue_tag_dispatch c8_words (by decide) (by decide) (by decide)).1
    ⟨decodeEvent (List.replicate 11 0), by decide, by decide⟩

/-- C10: on every successful call, the market field of the returned
MarketPubkeys is the market identifier argument, copied verbatim
(`Box::new(*market)` in the source), not re-read from the decoded
account. -/
theorem get_keys_market_field_verbatim (fetch : Pubkey → Except Err (List Nat))
    (gen : Nat → Pubkey → Pubkey → Except Err Pubkey) (p m : Pubkey)
    (ks : MarketPubkeys) (h : get_keys_for_market fetch gen p m = .ok ks) :
    ks.market = m := by
  unfold get_keys_for_market at h
  repeat' split at h
  all_goals try exact (Except.noConfusion h)
  injection h with h2
  rw [← h2]

set_option maxRecDepth 100000 in
/-- Witness for C10: the demo scenario succeeds and returns the all-zero
market identifier it was called with. -/
theorem get_keys_market_field_verbatim_witness : demo_ks.market = demo_m :=
  get_keys_market_field_verbatim demo_fetch demo_gen demo_prog demo_m demo_ks rfl
